import Mathlib

/-!
Verification of the notify-rust client/server core against its specification.

The development shallowly embeds the relevant parts of
`src/xdg/server_zbus.rs` (server-side notification lifecycle) and
`src/xdg/dbus_rs.rs` (client-side codec and correlation loop).
Machine integers are modelled as `Nat`/`Int`; the `u32` notification
counter wraps modulo `2 ^ 32` as in release-mode Rust.  Stateful and
concurrent behaviour (the drop-guard gate of `notify` and its spawned
auto-close task) is modelled as event traces together with the set of
order-preserving interleavings.
-/

set_option maxHeartbeats 1000000

namespace NotifyRust

/-- Protocol constants.  The defining module is outside `src/`; the values
follow the spec (§6): default interface `org.freedesktop.Notifications`
at the well-known freedesktop object path. -/
def NOTIFICATION_OBJECTPATH : String := "/org/freedesktop/Notifications"

/-- See `NOTIFICATION_OBJECTPATH`; the bus interface name (spec §6). -/
def NOTIFICATION_INTERFACE : String := "org.freedesktop.Notifications"

/-- Wire-level message item (`dbus::arg::messageitem::MessageItem`),
restricted to the variants the embedded code inspects; every other
variant is collapsed into `other`. -/
inductive MessageItem : Type where
  | str (s : String)
  | uint32 (n : Nat)
  | other
deriving DecidableEq

/-- Server-side decoded action, `Action` of `src/xdg/server_zbus.rs`
(lines 10-14): a `(tag, description)` pair. -/
structure Action : Type where
  tag : String
  description : String
deriving DecidableEq

/-- `Action::from_pair` (`src/xdg/server_zbus.rs:17-22`). -/
def Action.fromPair (pair : String × String) : Action :=
  { tag := pair.1, description := pair.2 }

/-- `Action::from_vec` (`src/xdg/server_zbus.rs:23-29`), transcribed from
the iterator chain
`raw.iter().zip(raw.iter().map(Some).chain(Some(None)).skip(1)).filter_map(..).map(Action::from_pair)`:
the list is zipped with its own tail extended by `None`, `filter_map`
keeps the pairs whose second component is present, and each surviving
pair becomes an `Action`. -/
def Action.fromVec (raw : List String) : List Action :=
  ((raw.zip ((raw.map some ++ [none]).drop 1)).filterMap
      (fun ab => ab.2.map (fun b => (ab.1, b)))).map Action.fromPair

/-- Modelled from the spec: the client-side `Notification` action list
(built by `Notification::action`, defined outside `src/`) is "a flat
alternating sequence of tag,label,tag,label,..." (spec §3), i.e. the
flattening of the ordered `(tag, label)` pairs. -/
def flattenActionPairs (pairs : List (String × String)) : List String :=
  pairs.flatMap (fun p => [p.1, p.2])

/-- `pack_actions` (`src/xdg/dbus_rs.rs:106-118`): every action string of
the notification becomes a wire string item (`action.to_owned().into()`);
an empty list yields the empty typed array, whose content is also `[]`. -/
def packActions (actions : List String) : List MessageItem :=
  actions.map MessageItem.str

/-- The string content an `as`-typed wire array delivers to the server
(the transport hands `notify` a `Vec<String>`). -/
def wireStrings (items : List MessageItem) : List String :=
  items.filterMap (fun it =>
    match it with
    | MessageItem.str s => some s
    | _ => none)

/-- `minimum_timeout` (`src/xdg/server_zbus.rs:165`), in milliseconds. -/
def minimumTimeout : Nat := 10

/-- The auto-close delay policy of `notify`
(`src/xdg/server_zbus.rs:200-211`): `none` when the requested timeout is
`0` (no close timer at all), otherwise the effective delay in
milliseconds computed by the spawned task. -/
def timeoutPolicy (timeout : Int) : Option Nat :=
  if timeout = 0 then
    none
  else
    some
      (if timeout < 0 then minimumTimeout
       else if timeout.toNat < minimumTimeout then minimumTimeout
       else timeout.toNat)

/-- Modelled from the spec: `CloseReason` (spec §3) — the `From<u32>`
conversion and the enum itself live outside `src/`; spec §6 fixes the
wire codes 1 = Expired, 2 = DismissedByUser, 3 = ClosedByRequest, and
everything else is the undefined/custom case. -/
inductive CloseReason : Type where
  | expired
  | dismissedByUser
  | closedByRequest
  | undefined (code : Nat)
deriving DecidableEq

/-- Modelled from the spec: decoding of the wire reason code (spec §6). -/
def CloseReason.ofNat (n : Nat) : CloseReason :=
  match n with
  | 1 => CloseReason.expired
  | 2 => CloseReason.dismissedByUser
  | 3 => CloseReason.closedByRequest
  | n => CloseReason.undefined n

/-- Modelled from the spec / src usage: the payload handed to the client
callback by the correlation loop (`ActionResponse::Custom` with the
action tag, or `ActionResponse::Closed` with the decoded reason); the
defining module is outside `src/`. -/
inductive ActionResponse : Type where
  | custom (action : String)
  | closed (reason : CloseReason)
deriving DecidableEq

/-- `ServerInformation` as used on both sides
(`src/xdg/server_zbus.rs:129-137`, `src/xdg/dbus_rs.rs:153-158`):
a static 4-tuple of strings. -/
structure ServerInformation : Type where
  name : String
  vendor : String
  version : String
  specVersion : String
deriving DecidableEq

/-- `unwrap_message_string` (`src/xdg/dbus_rs.rs:138-143`): a present
string item yields its value, anything else (missing or non-string)
yields the empty string. -/
def unwrapMessageString (item : Option MessageItem) : String :=
  match item with
  | some (MessageItem.str v) => v
  | _ => ""

/-- Reply decoding of `get_server_information`
(`src/xdg/dbus_rs.rs:146-159`): the four fields are read positionally
through `unwrap_message_string`. -/
def getServerInformationReply (items : List MessageItem) : ServerInformation :=
  { name := unwrapMessageString (items.get? 0)
    vendor := unwrapMessageString (items.get? 1)
    version := unwrapMessageString (items.get? 2)
    specVersion := unwrapMessageString (items.get? 3) }

/-- Reply decoding of the client `Notify` call
(`src/xdg/dbus_rs.rs:50-53`): a leading `UInt32` item is the id,
any other reply shape degrades to `Ok(0)`. -/
def notifyReplyDecode (items : List MessageItem) : Except String Nat :=
  match items.head? with
  | some (MessageItem.uint32 id) => Except.ok id
  | _ => Except.ok 0

/-- Hint decoding of `notify` (`src/xdg/server_zbus.rs:168-177`): each
raw entry runs through the fallible converter (`Hint::from_zbus`, whose
definition is outside `src/` and is therefore kept abstract as the
parameter `conv`); `Ok` results are kept, `Err` results are logged and
skipped, and the whole decode is total. -/
def decodeHints {K V H E : Type} (conv : K → V → Except E H)
    (raw : List (K × V)) : List H :=
  raw.filterMap (fun kv =>
    match conv kv.1 kv.2 with
    | Except.ok h => some h
    | Except.error _ => none)

/-- The `u32` counter increment of `notify`
(`src/xdg/server_zbus.rs:163`, `self.count += 1`): release-mode Rust
wraps on overflow, hence the reduction modulo `2 ^ 32 = 4294967296`. -/
def notifyIncrement (c : Nat) : Nat := (c + 1) % 4294967296

/-- Counter value after `n` calls of `notify` on one server instance;
the counter starts at `0` (`NotificationServer::with_handler`,
`src/xdg/server_zbus.rs:64-73`). -/
def countAfter : Nat → Nat
  | 0 => 0
  | n + 1 => notifyIncrement (countAfter n)

/-- The id returned by the `n`-th `notify` call (calls numbered from 1):
the reply is the counter value right after the pre-increment
(`src/xdg/server_zbus.rs:163-164` and `224`). -/
def assignedId (n : Nat) : Nat := countAfter n

/-! ### Event-trace model of `notify` and its auto-close task

`notify` (`src/xdg/server_zbus.rs:147-225`) is modelled as two event
lists: the main request-handling scope and the task spawned via
`async_std::task::spawn`.  The event `ret c` is the exit of the
request-handling scope on the success path: the `DropGuard` created at
line 198 is dropped there, firing its one-shot event (lines 85-90), and
`Ok(count)` is returned as the RPC reply.  The event `errRet` is the
early `?` return at line 192 (failed `action_invoked` emission), a path
on which no guard exists and no task has been spawned. -/

/-- Events of the `notify` lifecycle (with payloads). -/
inductive Ev : Type where
  | decode
  | emitAction (id : Nat) (tag : String)
  | emitActionFail (id : Nat) (tag : String)
  | handlerCall (id : Nat)
  | spawn
  | ret (id : Nat)
  | errRet
  | gateWait
  | sleep (ms : Nat)
  | emitClosed (id : Nat) (reason : CloseReason)
deriving DecidableEq

/-- Payload-free skeleton of an event, used to decide properties of all
interleavings by evaluation. -/
inductive SEv : Type where
  | decode
  | emitAction
  | emitActionFail
  | handlerCall
  | spawn
  | ret
  | errRet
  | gateWait
  | sleep
  | emitClosed
deriving DecidableEq

/-- Forget the payloads of an event. -/
def skel : Ev → SEv
  | Ev.decode => SEv.decode
  | Ev.emitAction _ _ => SEv.emitAction
  | Ev.emitActionFail _ _ => SEv.emitActionFail
  | Ev.handlerCall _ => SEv.handlerCall
  | Ev.spawn => SEv.spawn
  | Ev.ret _ => SEv.ret
  | Ev.errRet => SEv.errRet
  | Ev.gateWait => SEv.gateWait
  | Ev.sleep _ => SEv.sleep
  | Ev.emitClosed _ _ => SEv.emitClosed

def isRetS : SEv → Bool
  | SEv.ret => true
  | _ => false

def isGateWaitS : SEv → Bool
  | SEv.gateWait => true
  | _ => false

def isSleepS : SEv → Bool
  | SEv.sleep => true
  | _ => false

def isEmitClosedS : SEv → Bool
  | SEv.emitClosed => true
  | _ => false

def isEmitActionS : SEv → Bool
  | SEv.emitAction => true
  | _ => false

def isHandlerS : SEv → Bool
  | SEv.handlerCall => true
  | _ => false

def isRetE : Ev → Bool := fun e => isRetS (skel e)

def isGateWaitE : Ev → Bool := fun e => isGateWaitS (skel e)

def isSleepE : Ev → Bool := fun e => isSleepS (skel e)

def isEmitClosedE : Ev → Bool := fun e => isEmitClosedS (skel e)

def isEmitActionE : Ev → Bool := fun e => isEmitActionS (skel e)

def isHandlerE : Ev → Bool := fun e => isHandlerS (skel e)

/-- Trace of the request-handling scope of `notify`
(`src/xdg/server_zbus.rs:163-224`) for assigned id `c`, raw action array
`raws`, emission success flag `emitOk` (whether the zbus
`action_invoked` send at line 192 succeeds) and requested timeout:
decode, then — when the decoded action list is non-empty — the
`ActionInvoked` emission for the first action's tag (an early error
return if it fails), then the synchronous handler call, the task spawn,
and the scope exit returning the id. -/
def notifyMain (c : Nat) (raws : List String) (emitOk : Bool)
    (_timeout : Int) : List Ev :=
  match Action.fromVec raws with
  | [] => [Ev.decode, Ev.handlerCall c, Ev.spawn, Ev.ret c]
  | a :: _ =>
    if emitOk then
      [Ev.decode, Ev.emitAction c a.tag, Ev.handlerCall c, Ev.spawn,
        Ev.ret c]
    else
      [Ev.decode, Ev.emitActionFail c a.tag, Ev.errRet]

/-- Trace of the task spawned by `notify`
(`src/xdg/server_zbus.rs:199-221`): nothing on the early error return
(no task was spawned) and nothing when `timeout == 0` (the task only
logs); otherwise the task awaits the drop-guard listener, sleeps for
the effective delay of `timeoutPolicy`, and emits
`NotificationClosed(id, Expired)`. -/
def notifyTask (c : Nat) (raws : List String) (emitOk : Bool)
    (timeout : Int) : List Ev :=
  if Action.fromVec raws ≠ [] ∧ emitOk = false then []
  else
    match timeoutPolicy timeout with
    | none => []
    | some d => [Ev.gateWait, Ev.sleep d, Ev.emitClosed c CloseReason.expired]

/-- All order-preserving interleavings of two lists, with explicit fuel
(the fuel only needs to dominate the sum of the lengths). -/
def ileaveF {α : Type} : Nat → List α → List α → List (List α)
  | _, [], ys => [ys]
  | _, x :: xs, [] => [x :: xs]
  | 0, _ :: _, _ :: _ => []
  | Nat.succ n, x :: xs, y :: ys =>
    ((ileaveF n xs (y :: ys)).map (fun s => x :: s)) ++
      ((ileaveF n (x :: xs) ys).map (fun s => y :: s))

/-- All order-preserving interleavings of two lists: the possible
complete schedules of the main scope and the spawned task. -/
def interleavings {α : Type} (xs ys : List α) : List (List α) :=
  ileaveF (xs.length + ys.length) xs ys

/-- Auxiliary scan for `afterB`: `seen` records whether a `p`-event has
already occurred. -/
def afterGo {α : Type} (p q : α → Bool) : Bool → List α → Bool
  | _, [] => true
  | seen, e :: r => ((!q e) || seen) && afterGo p q (seen || p e) r

/-- `afterB p q s` holds when every `q`-event of `s` is strictly
preceded by an earlier `p`-event. -/
def afterB {α : Type} (p q : α → Bool) (s : List α) : Bool :=
  afterGo p q false s

/-! ### Client correlation loop (`wait_for_action_signal`) -/

/-- An inbound bus message as inspected by `wait_for_action_signal`
(`src/xdg/dbus_rs.rs:184-198`): optional path/interface/member (absent
components default to the empty string) and the argument items. -/
structure SignalMessage : Type where
  path : Option String
  interface : Option String
  member : Option String
  items : List MessageItem
deriving DecidableEq

/-- An item of `connection.iter(1000)`: a signal message or anything
else (which the loop skips). -/
inductive ConnItem : Type where
  | signal (m : SignalMessage)
  | nonSignal
deriving DecidableEq

/-- Result of handling one signal inside the loop body. -/
inductive StepResult : Type where
  | panic
  | next
  | invoke (r : ActionResponse)
deriving DecidableEq

/-- One iteration body of `wait_for_action_signal`
(`src/xdg/dbus_rs.rs:199-229`): the `(path, interface, member)` triple
is matched against the protocol constants; inside a matching arm the
code indexes `items[0]` and `items[1]` unconditionally (a panic when
fewer than two arguments are present), then pattern-matches the two
items and compares the carried id, breaking with a handler call only on
an exact id match. -/
def signalStep (id : Nat) (m : SignalMessage) : StepResult :=
  let path := m.path.getD ""
  let iface := m.interface.getD ""
  let member := m.member.getD ""
  if member = "ActionInvoked" ∧ path = NOTIFICATION_OBJECTPATH ∧
      iface = NOTIFICATION_INTERFACE then
    match m.items[0]?, m.items[1]? with
    | none, _ => StepResult.panic
    | some _, none => StepResult.panic
    | some (MessageItem.uint32 nid), some (MessageItem.str action) =>
      if nid = id then StepResult.invoke (ActionResponse.custom action)
      else StepResult.next
    | some _, some _ => StepResult.next
  else if member = "NotificationClosed" ∧ path = NOTIFICATION_OBJECTPATH ∧
      iface = NOTIFICATION_INTERFACE then
    match m.items[0]?, m.items[1]? with
    | none, _ => StepResult.panic
    | some _, none => StepResult.panic
    | some (MessageItem.uint32 nid), some (MessageItem.uint32 reason) =>
      if nid = id then
        StepResult.invoke (ActionResponse.closed (CloseReason.ofNat reason))
      else StepResult.next
    | some _, some _ => StepResult.next
  else StepResult.next

/-- Outcome of the correlation loop over a finite stream: either a
panic, or normal termination with the list of handler invocations
performed. -/
inductive LoopResult : Type where
  | panicked
  | finished (calls : List ActionResponse)
deriving DecidableEq

/-- The correlation loop `wait_for_action_signal`
(`src/xdg/dbus_rs.rs:170-232`) over a finite stream of connection
items: non-signal items are skipped, non-matching signals continue the
loop, the first matching signal invokes the handler once and breaks. -/
def waitForActionSignal (id : Nat) : List ConnItem → LoopResult
  | [] => LoopResult.finished []
  | ConnItem.nonSignal :: rest => waitForActionSignal id rest
  | ConnItem.signal m :: rest =>
    match signalStep id m with
    | StepResult.next => waitForActionSignal id rest
    | StepResult.panic => LoopResult.panicked
    | StepResult.invoke r => LoopResult.finished [r]

/-- A connection item the loop passes over without breaking or calling
the handler. -/
def itemSkips (id : Nat) : ConnItem → Prop
  | ConnItem.nonSignal => True
  | ConnItem.signal m => signalStep id m = StepResult.next

instance (id : Nat) (item : ConnItem) : Decidable (itemSkips id item) := by
  cases item with
  | nonSignal => exact isTrue trivial
  | signal m => exact inferInstanceAs (Decidable (_ = _))

/-- The `(path, interface, member)` triple of a signal matches one of
the two expected protocol arms. -/
def matchesTriple (m : SignalMessage) : Prop :=
  (m.member.getD "" = "ActionInvoked" ∨
      m.member.getD "" = "NotificationClosed") ∧
    m.path.getD "" = NOTIFICATION_OBJECTPATH ∧
    m.interface.getD "" = NOTIFICATION_INTERFACE

instance (m : SignalMessage) : Decidable (matchesTriple m) := by
  unfold matchesTriple; infer_instance

/-! ### Helper lemmas -/

theorem afterGo_map {α β : Type} (f : α → β) (p q : β → Bool) :
    ∀ (s : List α) (b : Bool),
      afterGo p q b (s.map f) =
        afterGo (fun a => p (f a)) (fun a => q (f a)) b s := by
  intro s
  induction s with
  | nil => intro b; rfl
  | cons e r ih => intro b; simp [afterGo, ih]

theorem afterB_skel (p q : SEv → Bool) (s : List Ev) :
    afterB (fun e => p (skel e)) (fun e => q (skel e)) s =
      afterB p q (s.map skel) := by
  unfold afterB
  exact (afterGo_map skel p q s false).symm

theorem countP_skel (p : SEv → Bool) (s : List Ev) :
    s.countP (fun e => p (skel e)) = (s.map skel).countP p := by
  induction s with
  | nil => rfl
  | cons e r ih => simp [List.countP_cons, ih]

theorem ileaveF_map {α β : Type} (f : α → β) :
    ∀ (n : Nat) (xs ys s : List α), s ∈ ileaveF n xs ys →
      s.map f ∈ ileaveF n (xs.map f) (ys.map f) := by
  intro n
  induction n with
  | zero =>
    intro xs ys s hs
    match xs, ys with
    | [], ys =>
      simp only [ileaveF, List.mem_singleton] at hs
      subst hs
      simp [ileaveF]
    | x :: xs, [] =>
      simp only [ileaveF, List.mem_singleton] at hs
      subst hs
      simp [ileaveF]
    | x :: xs, y :: ys =>
      simp [ileaveF] at hs
  | succ n ih =>
    intro xs ys s hs
    match xs, ys with
    | [], ys =>
      simp only [ileaveF, List.mem_singleton] at hs
      subst hs
      simp [ileaveF]
    | x :: xs, [] =>
      simp only [ileaveF, List.mem_singleton] at hs
      subst hs
      simp [ileaveF]
    | x :: xs, y :: ys =>
      simp only [ileaveF, List.mem_append, List.mem_map] at hs
      rcases hs with ⟨s', hs', rfl⟩ | ⟨s', hs', rfl⟩
      · have := ih xs (y :: ys) s' hs'
        simp only [ileaveF, List.mem_append, List.mem_map, List.map_cons]
        exact Or.inl ⟨s'.map f, by simpa using this, rfl⟩
      · have := ih (x :: xs) ys s' hs'
        simp only [ileaveF, List.mem_append, List.mem_map, List.map_cons]
        exact Or.inr ⟨s'.map f, by simpa using this, rfl⟩

theorem interleavings_map {α β : Type} (f : α → β) {xs ys s : List α}
    (h : s ∈ interleavings xs ys) :
    s.map f ∈ interleavings (xs.map f) (ys.map f) := by
  unfold interleavings at h ⊢
  simpa [List.length_map] using
    ileaveF_map f (xs.length + ys.length) xs ys s h

theorem countAfter_eq (n : Nat) : countAfter n = n % 4294967296 := by
  induction n with
  | zero => rfl
  | succ n ih =>
    show notifyIncrement (countAfter n) = (n + 1) % 4294967296
    rw [ih]
    unfold notifyIncrement
    omega

theorem unwrapMessageString_non_str (o : Option MessageItem)
    (h : match o with
      | some (MessageItem.str _) => False
      | _ => True) :
    unwrapMessageString o = "" := by
  match o with
  | none => rfl
  | some MessageItem.other => rfl
  | some (MessageItem.uint32 _) => rfl
  | some (MessageItem.str _) => exact h.elim

/-! ### Claim theorems -/

/-- C3: claimed — `Action::from_vec` pairs consecutive elements into
non-overlapping `(tag, label)` pairs, a length-`2k` input decoding to
exactly `k` actions.  The code instead zips the array with its own
tail, producing overlapping sliding-window pairs: the length-4 input
`["yes", "Yes", "no", "No"]` decodes to 3 actions, with the label
`"Yes"` misparsed as the tag of a second action. -/
theorem from_vec_overlapping_windows :
    Action.fromVec ["yes", "Yes", "no", "No"] =
      [⟨"yes", "Yes"⟩, ⟨"Yes", "no"⟩, ⟨"no", "No"⟩] ∧
    (Action.fromVec ["yes", "Yes", "no", "No"]).length ≠ 2 :=
  ⟨rfl, by decide⟩

/-- C2: claimed — encoding an ordered list of `(tag, label)` pairs to
the flat wire array and decoding it round-trips to the original list.
For the two-pair list `[("ok", "Okay"), ("cancel", "Cancel")]` the
decode returns three overlapping actions instead of the original two,
so the round trip fails for every `k ≥ 2`. -/
theorem pack_then_decode_overlaps :
    Action.fromVec (wireStrings (packActions (flattenActionPairs
        [("ok", "Okay"), ("cancel", "Cancel")]))) =
      [⟨"ok", "Okay"⟩, ⟨"Okay", "cancel"⟩, ⟨"cancel", "Cancel"⟩] ∧
    Action.fromVec (wireStrings (packActions (flattenActionPairs
        [("ok", "Okay"), ("cancel", "Cancel")]))) ≠
      [⟨"ok", "Okay"⟩, ⟨"cancel", "Cancel"⟩] :=
  ⟨rfl, by decide⟩

/-- C4: the server's auto-close policy over the requested timeout `t`
with minimum `M = 10` ms: `t = 0` schedules no close timer, `t < 0`
and `0 < t < M` clamp to `M`, and `t ≥ M` is used as requested. -/
theorem timeout_policy_cases (t : Int) :
    (t = 0 → timeoutPolicy t = none) ∧
    (t < 0 → timeoutPolicy t = some minimumTimeout) ∧
    (0 < t → t < 10 → timeoutPolicy t = some minimumTimeout) ∧
    (10 ≤ t → timeoutPolicy t = some t.toNat) := by
  refine ⟨fun h => ?_, fun h => ?_, fun h1 h2 => ?_, fun h => ?_⟩
  · simp [timeoutPolicy, h]
  · have h0 : ¬ t = 0 := by omega
    simp [timeoutPolicy, h0, h]
  · have h0 : ¬ t = 0 := by omega
    have hn : ¬ t < 0 := by omega
    have ht : t.toNat < minimumTimeout := by
      unfold minimumTimeout; omega
    simp [timeoutPolicy, h0, hn, ht]
  · have h0 : ¬ t = 0 := by omega
    have hn : ¬ t < 0 := by omega
    have ht : ¬ t.toNat < minimumTimeout := by
      unfold minimumTimeout; omega
    simp [timeoutPolicy, h0, hn, ht]

/-- Witness for C4 at the spec's own sample points. -/
theorem timeout_policy_cases_witness :
    timeoutPolicy 0 = none ∧ timeoutPolicy (-1) = some minimumTimeout ∧
      timeoutPolicy 5 = some minimumTimeout ∧
      timeoutPolicy 50 = some (Int.toNat 50) :=
  ⟨(timeout_policy_cases 0).1 rfl,
   (timeout_policy_cases (-1)).2.1 (by decide),
   (timeout_policy_cases 5).2.2.1 (by decide) (by decide),
   (timeout_policy_cases 50).2.2.2 (by decide)⟩

/-- C5 counterexample: the id counter is a wrapping `u32`, so the
`4294967296`-th `notify` call is assigned id `0`, contradicting the
claim that ids are strictly increasing forever and never `0`. -/
theorem assigned_id_wraps_to_zero : assignedId 4294967296 = 0 := by
  show countAfter 4294967296 = 0
  rw [countAfter_eq]

/-- C5 amended: ids are assigned by pre-increment of a single counter
starting from 0 modulo `2 ^ 32`; within the first `2 ^ 32 − 1` calls the
first assigned id is 1, the `n`-th call receives id `n` (so ids are
strictly increasing, pairwise distinct and never 0); at the
`2 ^ 32`-th call the counter wraps to 0. -/
theorem assigned_ids_monotone_below_wrap (i j : Nat) (hi : 0 < i)
    (hij : i < j) (hj : j < 4294967296) :
    assignedId 1 = 1 ∧ assignedId i = i ∧ assignedId i ≠ 0 ∧
      assignedId i < assignedId j := by
  have e : ∀ n, n < 4294967296 → assignedId n = n := by
    intro n hn
    show countAfter n = n
    rw [countAfter_eq]
    omega
  refine ⟨e 1 (by omega), e i (by omega), ?_, ?_⟩
  · rw [e i (by omega)]; omega
  · rw [e i (by omega), e j hj]; exact hij

/-- Witness for C5's amended theorem at calls 2 and 3. -/
theorem assigned_ids_monotone_below_wrap_witness :
    assignedId 1 = 1 ∧ assignedId 2 = 2 ∧ assignedId 2 ≠ 0 ∧
      assignedId 2 < assignedId 3 :=
  assigned_ids_monotone_below_wrap 2 3 (by decide) (by decide) (by decide)

/-- C8: hint decoding converts each entry independently — an entry
whose conversion fails is skipped while the remaining entries decode
exactly as without it, an entry whose conversion succeeds is kept in
place, and the decode is total (it returns a plain list for every
input, never an error). -/
theorem decode_hints_entry_independent {K V H E : Type}
    (conv : K → V → Except E H) (l1 l2 : List (K × V)) (k : K) (v : V) :
    (∀ e : E, conv k v = Except.error e →
      decodeHints conv (l1 ++ (k, v) :: l2) = decodeHints conv (l1 ++ l2)) ∧
    (∀ h : H, conv k v = Except.ok h →
      decodeHints conv (l1 ++ (k, v) :: l2) =
        decodeHints conv l1 ++ h :: decodeHints conv l2) := by
  constructor
  · intro e he
    unfold decodeHints
    simp [List.filterMap_append, List.filterMap_cons, he]
  · intro h hh
    unfold decodeHints
    simp [List.filterMap_append, List.filterMap_cons, hh]

/-- Witness for C8: a failing middle entry is dropped and the
surrounding entries decode as if it were absent. -/
theorem decode_hints_entry_independent_witness :
    decodeHints
        (fun (k : String) (b : Bool) =>
          if b then Except.ok k else Except.error "bad")
        ([("a", true)] ++ ("x", false) :: [("b", true)]) =
      decodeHints
        (fun (k : String) (b : Bool) =>
          if b then Except.ok k else Except.error "bad")
        ([("a", true)] ++ [("b", true)]) :=
  (decode_hints_entry_independent
      (fun (k : String) (b : Bool) =>
        if b then Except.ok k else Except.error "bad")
      [("a", true)] [("b", true)] "x" false).1 "bad" rfl

/-- C9: a malformed reply degrades instead of failing the call — a
`Notify` reply whose first item is not a `uint32` decodes to the
successful id `0`, and every missing or non-string positional field of
a `GetServerInformation` reply becomes the empty string. -/
theorem malformed_reply_degrades (items : List MessageItem) :
    ((match items.head? with
      | some (MessageItem.uint32 _) => False
      | _ => True) → notifyReplyDecode items = Except.ok 0) ∧
    ((match items.get? 0 with
      | some (MessageItem.str _) => False
      | _ => True) → (getServerInformationReply items).name = "") ∧
    ((match items.get? 1 with
      | some (MessageItem.str _) => False
      | _ => True) → (getServerInformationReply items).vendor = "") ∧
    ((match items.get? 2 with
      | some (MessageItem.str _) => False
      | _ => True) → (getServerInformationReply items).version = "") ∧
    ((match items.get? 3 with
      | some (MessageItem.str _) => False
      | _ => True) → (getServerInformationReply items).specVersion = "") := by
  refine ⟨?_, ?_, ?_, ?_, ?_⟩
  · intro h
    rcases hh : items.head? with _ | mi
    · simp [notifyReplyDecode, hh]
    · cases mi with
      | str s => simp [notifyReplyDecode, hh]
      | uint32 n => simp [hh] at h
      | other => simp [notifyReplyDecode, hh]
  · exact fun h => unwrapMessageString_non_str _ h
  · exact fun h => unwrapMessageString_non_str _ h
  · exact fun h => unwrapMessageString_non_str _ h
  · exact fun h => unwrapMessageString_non_str _ h

/-- Witness for C9 on the reply `[other]`: the notify id degrades to
`0` and all four information fields degrade to the empty string. -/
theorem malformed_reply_degrades_witness :
    notifyReplyDecode [MessageItem.other] = Except.ok 0 ∧
      (getServerInformationReply [MessageItem.other]).name = "" ∧
      (getServerInformationReply [MessageItem.other]).vendor = "" ∧
      (getServerInformationReply [MessageItem.other]).version = "" ∧
      (getServerInformationReply [MessageItem.other]).specVersion = "" :=
  ⟨(malformed_reply_degrades [MessageItem.other]).1 trivial,
   (malformed_reply_degrades [MessageItem.other]).2.1 trivial,
   (malformed_reply_degrades [MessageItem.other]).2.2.1 trivial,
   (malformed_reply_degrades [MessageItem.other]).2.2.2.1 trivial,
   (malformed_reply_degrades [MessageItem.other]).2.2.2.2 trivial⟩

/-- C6: when the decoded action list of a request is non-empty the
server emits exactly one `ActionInvoked` event, carrying the assigned
id and the first decoded action's tag, and it does so before the
handler call and before the scope exit that returns the id; with an
empty decoded action list no such event occurs. -/
theorem notify_first_action_signal (c : Nat) (raws : List String) (t : Int) :
    (Action.fromVec raws = [] →
      (notifyMain c raws true t).countP isEmitActionE = 0) ∧
    (∀ (a : Action) (rest : List Action), Action.fromVec raws = a :: rest →
      (notifyMain c raws true t).countP isEmitActionE = 1 ∧
      Ev.emitAction c a.tag ∈ notifyMain c raws true t ∧
      afterB isEmitActionE isHandlerE (notifyMain c raws true t) = true ∧
      afterB isEmitActionE isRetE (notifyMain c raws true t) = true) := by
  constructor
  · intro h
    simp [notifyMain, h, List.countP_cons, isEmitActionE, isEmitActionS, skel]
  · intro a rest h
    refine ⟨?_, ?_, ?_, ?_⟩ <;>
      simp [notifyMain, h, List.countP_cons, afterB, afterGo, isEmitActionE,
        isHandlerE, isRetE, isEmitActionS, isHandlerS, isRetS, skel]

/-- Witness for C6 on a single-action request. -/
theorem notify_first_action_signal_witness :
    (notifyMain 5 ["k", "pressed"] true 0).countP isEmitActionE = 1 ∧
      Ev.emitAction 5 (Action.mk "k" "pressed").tag ∈
        notifyMain 5 ["k", "pressed"] true 0 ∧
      afterB isEmitActionE isHandlerE (notifyMain 5 ["k", "pressed"] true 0) =
        true ∧
      afterB isEmitActionE isRetE (notifyMain 5 ["k", "pressed"] true 0) =
        true :=
  (notify_first_action_signal 5 ["k", "pressed"] 0).2
    (Action.mk "k" "pressed") [] (by decide)

/-- C1 counterexample: on the early error exit of `notify` (a failed
`action_invoked` emission at `src/xdg/server_zbus.rs:192`) the
`DropGuard` of line 198 has not yet been created, so the one-shot gate
does not exist and never fires on that exit path — the complete trace
of the call (no task was spawned, so the only schedule is the main
trace itself) ends in the error return and contains zero gate-firing
scope exits, refuting "fires exactly once on any exit path (normal or
error)". -/
theorem notify_error_path_gate_never_fires :
    notifyTask 1 ["a", "b"] false 5 = [] ∧
    notifyMain 1 ["a", "b"] false 5 =
      [Ev.decode, Ev.emitActionFail 1 "a", Ev.errRet] ∧
    notifyMain 1 ["a", "b"] false 5 ∈
      interleavings (notifyMain 1 ["a", "b"] false 5)
        (notifyTask 1 ["a", "b"] false 5) ∧
    (notifyMain 1 ["a", "b"] false 5).countP isRetE = 0 := by
  refine ⟨by decide, by decide, by decide, by decide⟩

/-- C1 amended: for every `notify` request and every valid complete
schedule of the request-handling scope with its spawned auto-close task
(valid: the task's gate wait cannot be scheduled before the scope-exit
event that drops the guard), every `NotificationClosed` emission occurs
strictly after the scope exit that produces the RPC reply; the task
waits on the gate before sleeping and before emitting; the gate-firing
scope exit occurs at most once — exactly once on every path on which
the guard exists (all normal exits) — while on the early error exit no
guard is created, no task is spawned and no close signal is ever
emitted. -/
theorem notify_close_only_after_scope_exit (c : Nat) (raws : List String)
    (emitOk : Bool) (t : Int) (s : List Ev)
    (hs : s ∈ interleavings (notifyMain c raws emitOk t)
        (notifyTask c raws emitOk t))
    (hgate : afterB isRetE isGateWaitE s = true) :
    afterB isRetE isEmitClosedE s = true ∧
    afterB isGateWaitE isSleepE s = true ∧
    afterB isGateWaitE isEmitClosedE s = true ∧
    s.countP isRetE ≤ 1 ∧
    ((Action.fromVec raws = [] ∨ emitOk = true) → s.countP isRetE = 1) ∧
    (Action.fromVec raws ≠ [] ∧ emitOk = false →
      s.countP isRetE = 0 ∧ s.countP isEmitClosedE = 0) := by
  have hs' : s.map skel ∈
      interleavings ((notifyMain c raws emitOk t).map skel)
        ((notifyTask c raws emitOk t).map skel) :=
    interleavings_map skel hs
  have e0 : afterB isRetE isGateWaitE s =
      afterB isRetS isGateWaitS (s.map skel) := afterB_skel _ _ _
  have e1 : afterB isRetE isEmitClosedE s =
      afterB isRetS isEmitClosedS (s.map skel) := afterB_skel _ _ _
  have e2 : afterB isGateWaitE isSleepE s =
      afterB isGateWaitS isSleepS (s.map skel) := afterB_skel _ _ _
  have e3 : afterB isGateWaitE isEmitClosedE s =
      afterB isGateWaitS isEmitClosedS (s.map skel) := afterB_skel _ _ _
  have c1 : s.countP isRetE = (s.map skel).countP isRetS := countP_skel _ _
  have c2 : s.countP isEmitClosedE = (s.map skel).countP isEmitClosedS :=
    countP_skel _ _
  rw [e0] at hgate
  rw [e1, e2, e3, c1, c2]
  rcases hcase : Action.fromVec raws with _ | ⟨a, rest⟩
  · have hm : (notifyMain c raws emitOk t).map skel =
        [SEv.decode, SEv.handlerCall, SEv.spawn, SEv.ret] := by
      simp [notifyMain, hcase, skel]
    cases hp : timeoutPolicy t with
    | none =>
      have hk : (notifyTask c raws emitOk t).map skel = [] := by
        simp [notifyTask, hcase, hp]
      rw [hm, hk] at hs'
      have all : ∀ w ∈ interleavings
          [SEv.decode, SEv.handlerCall, SEv.spawn, SEv.ret]
          ([] : List SEv),
          afterB isRetS isGateWaitS w = true →
            (afterB isRetS isEmitClosedS w = true ∧
             afterB isGateWaitS isSleepS w = true ∧
             afterB isGateWaitS isEmitClosedS w = true ∧
             w.countP isRetS ≤ 1 ∧ w.countP isRetS = 1) := by decide
      have H := all (s.map skel) hs' hgate
      exact ⟨H.1, H.2.1, H.2.2.1, H.2.2.2.1, fun _ => H.2.2.2.2,
        fun hcon => absurd rfl hcon.1⟩
    | some d =>
      have hk : (notifyTask c raws emitOk t).map skel =
          [SEv.gateWait, SEv.sleep, SEv.emitClosed] := by
        simp [notifyTask, hcase, hp, skel]
      rw [hm, hk] at hs'
      have all : ∀ w ∈ interleavings
          [SEv.decode, SEv.handlerCall, SEv.spawn, SEv.ret]
          [SEv.gateWait, SEv.sleep, SEv.emitClosed],
          afterB isRetS isGateWaitS w = true →
            (afterB isRetS isEmitClosedS w = true ∧
             afterB isGateWaitS isSleepS w = true ∧
             afterB isGateWaitS isEmitClosedS w = true ∧
             w.countP isRetS ≤ 1 ∧ w.countP isRetS = 1) := by decide
      have H := all (s.map skel) hs' hgate
      exact ⟨H.1, H.2.1, H.2.2.1, H.2.2.2.1, fun _ => H.2.2.2.2,
        fun hcon => absurd rfl hcon.1⟩
  · cases emitOk with
    | false =>
      have hm : (notifyMain c raws false t).map skel =
          [SEv.decode, SEv.emitActionFail, SEv.errRet] := by
        simp [notifyMain, hcase, skel]
      have hk : (notifyTask c raws false t).map skel = [] := by
        simp [notifyTask, hcase]
      rw [hm, hk] at hs'
      have all : ∀ w ∈ interleavings
          [SEv.decode, SEv.emitActionFail, SEv.errRet] ([] : List SEv),
          afterB isRetS isGateWaitS w = true →
            (afterB isRetS isEmitClosedS w = true ∧
             afterB isGateWaitS isSleepS w = true ∧
             afterB isGateWaitS isEmitClosedS w = true ∧
             w.countP isRetS ≤ 1 ∧ w.countP isRetS = 0 ∧
             w.countP isEmitClosedS = 0) := by decide
      have H := all (s.map skel) hs' hgate
      refine ⟨H.1, H.2.1, H.2.2.1, H.2.2.2.1, ?_, fun _ => H.2.2.2.2⟩
      intro hor
      rcases hor with h1 | h2
      · simp at h1
      · cases h2
    | true =>
      have hm : (notifyMain c raws true t).map skel =
          [SEv.decode, SEv.emitAction, SEv.handlerCall, SEv.spawn,
            SEv.ret] := by
        simp [notifyMain, hcase, skel]
      cases hp : timeoutPolicy t with
      | none =>
        have hk : (notifyTask c raws true t).map skel = [] := by
          simp [notifyTask, hcase, hp]
        rw [hm, hk] at hs'
        have all : ∀ w ∈ interleavings
            [SEv.decode, SEv.emitAction, SEv.handlerCall, SEv.spawn,
              SEv.ret] ([] : List SEv),
            afterB isRetS isGateWaitS w = true →
              (afterB isRetS isEmitClosedS w = true ∧
               afterB isGateWaitS isSleepS w = true ∧
               afterB isGateWaitS isEmitClosedS w = true ∧
               w.countP isRetS ≤ 1 ∧ w.countP isRetS = 1) := by decide
        have H := all (s.map skel) hs' hgate
        exact ⟨H.1, H.2.1, H.2.2.1, H.2.2.2.1, fun _ => H.2.2.2.2,
          fun hcon => by cases hcon.2⟩
      | some d =>
        have hk : (notifyTask c raws true t).map skel =
            [SEv.gateWait, SEv.sleep, SEv.emitClosed] := by
          simp [notifyTask, hcase, hp, skel]
        rw [hm, hk] at hs'
        have all : ∀ w ∈ interleavings
            [SEv.decode, SEv.emitAction, SEv.handlerCall, SEv.spawn,
              SEv.ret]
            [SEv.gateWait, SEv.sleep, SEv.emitClosed],
            afterB isRetS isGateWaitS w = true →
              (afterB isRetS isEmitClosedS w = true ∧
               afterB isGateWaitS isSleepS w = true ∧
               afterB isGateWaitS isEmitClosedS w = true ∧
               w.countP isRetS ≤ 1 ∧ w.countP isRetS = 1) := by decide
        have H := all (s.map skel) hs' hgate
        exact ⟨H.1, H.2.1, H.2.2.1, H.2.2.2.1, fun _ => H.2.2.2.2,
          fun hcon => by cases hcon.2⟩

/-- Witness for C1's amended theorem: the sequential schedule of a
one-action request with timeout 25 ms satisfies the close-after-reply
ordering. -/
theorem notify_close_only_after_scope_exit_witness :
    afterB isRetE isEmitClosedE
      [Ev.decode, Ev.emitAction 1 "act", Ev.handlerCall 1, Ev.spawn,
        Ev.ret 1, Ev.gateWait, Ev.sleep 25,
        Ev.emitClosed 1 CloseReason.expired] = true :=
  (notify_close_only_after_scope_exit 1 ["act", "Act"] true 25
    [Ev.decode, Ev.emitAction 1 "act", Ev.handlerCall 1, Ev.spawn,
      Ev.ret 1, Ev.gateWait, Ev.sleep 25,
      Ev.emitClosed 1 CloseReason.expired]
    (by decide) (by decide)).1

/-- C7: the correlation loop bound to id `id` ignores every
non-matching signal — wrong member, wrong object path, wrong interface,
or a carried id different from `id` — and the first matching signal
invokes the handler exactly once (with the action tag for
`ActionInvoked`, with the decoded close reason for
`NotificationClosed`) and terminates the loop, so at most one callback
fires per handle. -/
theorem correlation_loop_first_match (id : Nat) :
    (∀ m : SignalMessage, m.member.getD "" ≠ "ActionInvoked" →
      m.member.getD "" ≠ "NotificationClosed" →
      signalStep id m = StepResult.next) ∧
    (∀ m : SignalMessage, m.path.getD "" ≠ NOTIFICATION_OBJECTPATH →
      signalStep id m = StepResult.next) ∧
    (∀ m : SignalMessage, m.interface.getD "" ≠ NOTIFICATION_INTERFACE →
      signalStep id m = StepResult.next) ∧
    (∀ (m : SignalMessage) (nid : Nat) (x : MessageItem),
      m.items[0]? = some (MessageItem.uint32 nid) →
      m.items[1]? = some x → nid ≠ id →
      signalStep id m = StepResult.next) ∧
    (∀ (m : SignalMessage) (tag : String),
      m.path.getD "" = NOTIFICATION_OBJECTPATH →
      m.interface.getD "" = NOTIFICATION_INTERFACE →
      m.member.getD "" = "ActionInvoked" →
      m.items[0]? = some (MessageItem.uint32 id) →
      m.items[1]? = some (MessageItem.str tag) →
      signalStep id m = StepResult.invoke (ActionResponse.custom tag)) ∧
    (∀ (m : SignalMessage) (reason : Nat),
      m.path.getD "" = NOTIFICATION_OBJECTPATH →
      m.interface.getD "" = NOTIFICATION_INTERFACE →
      m.member.getD "" = "NotificationClosed" →
      m.items[0]? = some (MessageItem.uint32 id) →
      m.items[1]? = some (MessageItem.uint32 reason) →
      signalStep id m =
        StepResult.invoke (ActionResponse.closed (CloseReason.ofNat reason))) ∧
    (∀ (pre : List ConnItem) (m : SignalMessage) (rest : List ConnItem)
        (r : ActionResponse),
      (∀ item ∈ pre, itemSkips id item) →
      signalStep id m = StepResult.invoke r →
      waitForActionSignal id (pre ++ ConnItem.signal m :: rest) =
        LoopResult.finished [r]) := by
  refine ⟨?_, ?_, ?_, ?_, ?_, ?_, ?_⟩
  · intro m h1 h2
    have hc1 : ¬(m.member.getD "" = "ActionInvoked" ∧
        m.path.getD "" = NOTIFICATION_OBJECTPATH ∧
        m.interface.getD "" = NOTIFICATION_INTERFACE) := fun hh => h1 hh.1
    have hc2 : ¬(m.member.getD "" = "NotificationClosed" ∧
        m.path.getD "" = NOTIFICATION_OBJECTPATH ∧
        m.interface.getD "" = NOTIFICATION_INTERFACE) := fun hh => h2 hh.1
    simp [signalStep, hc1, hc2]
  · intro m h
    have hc1 : ¬(m.member.getD "" = "ActionInvoked" ∧
        m.path.getD "" = NOTIFICATION_OBJECTPATH ∧
        m.interface.getD "" = NOTIFICATION_INTERFACE) := fun hh => h hh.2.1
    have hc2 : ¬(m.member.getD "" = "NotificationClosed" ∧
        m.path.getD "" = NOTIFICATION_OBJECTPATH ∧
        m.interface.getD "" = NOTIFICATION_INTERFACE) := fun hh => h hh.2.1
    simp [signalStep, hc1, hc2]
  · intro m h
    have hc1 : ¬(m.member.getD "" = "ActionInvoked" ∧
        m.path.getD "" = NOTIFICATION_OBJECTPATH ∧
        m.interface.getD "" = NOTIFICATION_INTERFACE) := fun hh => h hh.2.2
    have hc2 : ¬(m.member.getD "" = "NotificationClosed" ∧
        m.path.getD "" = NOTIFICATION_OBJECTPATH ∧
        m.interface.getD "" = NOTIFICATION_INTERFACE) := fun hh => h hh.2.2
    simp [signalStep, hc1, hc2]
  · intro m nid x h0 h1x hne
    by_cases hA : (m.member.getD "" = "ActionInvoked" ∧
        m.path.getD "" = NOTIFICATION_OBJECTPATH ∧
        m.interface.getD "" = NOTIFICATION_INTERFACE)
    · cases x with
      | str a => simp [signalStep, hA, h0, h1x, hne]
      | uint32 k => simp [signalStep, hA, h0, h1x]
      | other => simp [signalStep, hA, h0, h1x]
    · by_cases hC : (m.member.getD "" = "NotificationClosed" ∧
          m.path.getD "" = NOTIFICATION_OBJECTPATH ∧
          m.interface.getD "" = NOTIFICATION_INTERFACE)
      · cases x with
        | str a => simp [signalStep, hA, hC, h0, h1x]
        | uint32 k => simp [signalStep, hA, hC, h0, h1x, hne]
        | other => simp [signalStep, hA, hC, h0, h1x]
      · simp [signalStep, hA, hC]
  · intro m tag hpath hiface hmem h0 h1
    simp [signalStep, hpath, hiface, hmem, h0, h1]
  · intro m reason hpath hiface hmem h0 h1
    simp [signalStep, hpath, hiface, hmem, h0, h1]
  · intro pre
    induction pre with
    | nil =>
      intro m rest r _ hstep
      simp [waitForActionSignal, hstep]
    | cons it pre ih =>
      intro m rest r hskips hstep
      have hhd := hskips it (List.mem_cons_self it pre)
      have htl : ∀ item ∈ pre, itemSkips id item :=
        fun x hx => hskips x (List.mem_cons_of_mem _ hx)
      cases it with
      | nonSignal =>
        simpa [waitForActionSignal] using ih m rest r htl hstep
      | signal m' =>
        have hstep' : signalStep id m' = StepResult.next := hhd
        simpa [waitForActionSignal, hstep'] using ih m rest r htl hstep

/-- Witness for C7: with id 7, a stream of one non-signal item, a
wrong-member signal, a wrong-id signal, then a matching `ActionInvoked`
for id 7, followed by a further matching close signal, the loop calls
the handler exactly once, with the tag of the first match, and stops. -/
theorem correlation_loop_first_match_witness :
    waitForActionSignal 7
        [ConnItem.nonSignal,
          ConnItem.signal
            { path := some NOTIFICATION_OBJECTPATH
              interface := some NOTIFICATION_INTERFACE
              member := some "SomethingElse"
              items := [MessageItem.uint32 7, MessageItem.str "x"] },
          ConnItem.signal
            { path := some NOTIFICATION_OBJECTPATH
              interface := some NOTIFICATION_INTERFACE
              member := some "ActionInvoked"
              items := [MessageItem.uint32 9, MessageItem.str "x"] },
          ConnItem.signal
            { path := some NOTIFICATION_OBJECTPATH
              interface := some NOTIFICATION_INTERFACE
              member := some "ActionInvoked"
              items := [MessageItem.uint32 7, MessageItem.str "ok"] },
          ConnItem.signal
            { path := some NOTIFICATION_OBJECTPATH
              interface := some NOTIFICATION_INTERFACE
              member := some "NotificationClosed"
              items := [MessageItem.uint32 7, MessageItem.uint32 1] }] =
      LoopResult.finished [ActionResponse.custom "ok"] :=
  (correlation_loop_first_match 7).2.2.2.2.2.2
    [ConnItem.nonSignal,
      ConnItem.signal
        { path := some NOTIFICATION_OBJECTPATH
          interface := some NOTIFICATION_INTERFACE
          member := some "SomethingElse"
          items := [MessageItem.uint32 7, MessageItem.str "x"] },
      ConnItem.signal
        { path := some NOTIFICATION_OBJECTPATH
          interface := some NOTIFICATION_INTERFACE
          member := some "ActionInvoked"
          items := [MessageItem.uint32 9, MessageItem.str "x"] }]
    { path := some NOTIFICATION_OBJECTPATH
      interface := some NOTIFICATION_INTERFACE
      member := some "ActionInvoked"
      items := [MessageItem.uint32 7, MessageItem.str "ok"] }
    [ConnItem.signal
        { path := some NOTIFICATION_OBJECTPATH
          interface := some NOTIFICATION_INTERFACE
          member := some "NotificationClosed"
          items := [MessageItem.uint32 7, MessageItem.uint32 1] }]
    (ActionResponse.custom "ok") (by decide) (by decide)

/-- Helper for C10: a signal whose matching arm can index both
arguments never panics. -/
theorem signalStep_no_panic_of_two_args (id : Nat) (m : SignalMessage)
    (h : matchesTriple m → 2 ≤ m.items.length) :
    signalStep id m ≠ StepResult.panic := by
  by_cases hA : (m.member.getD "" = "ActionInvoked" ∧
      m.path.getD "" = NOTIFICATION_OBJECTPATH ∧
      m.interface.getD "" = NOTIFICATION_INTERFACE)
  · have hlen : 2 ≤ m.items.length := h ⟨Or.inl hA.1, hA.2.1, hA.2.2⟩
    rcases hx0 : m.items[0]? with _ | x0
    · rw [List.getElem?_eq_none_iff] at hx0; omega
    · rcases hx1 : m.items[1]? with _ | x1
      · rw [List.getElem?_eq_none_iff] at hx1; omega
      · cases x0 <;> cases x1 <;> simp [signalStep, hA, hx0, hx1]
        all_goals (split <;> simp)
  · by_cases hC : (m.member.getD "" = "NotificationClosed" ∧
        m.path.getD "" = NOTIFICATION_OBJECTPATH ∧
        m.interface.getD "" = NOTIFICATION_INTERFACE)
    · have hlen : 2 ≤ m.items.length := h ⟨Or.inr hC.1, hC.2.1, hC.2.2⟩
      rcases hx0 : m.items[0]? with _ | x0
      · rw [List.getElem?_eq_none_iff] at hx0; omega
      · rcases hx1 : m.items[1]? with _ | x1
        · rw [List.getElem?_eq_none_iff] at hx1; omega
        · cases x0 <;> cases x1 <;> simp [signalStep, hA, hC, hx0, hx1]
          all_goals (split <;> simp)
    · simp [signalStep, hA, hC]

/-- C10: a signal whose `(path, interface, member)` triple matches the
expected `ActionInvoked` arm but which carries fewer than two arguments
makes the loop body index out of bounds (a panic), and the loop is
total exactly under the precondition that every triple-matching signal
of the stream carries at least two arguments. -/
theorem matching_signal_short_args_panics :
    signalStep 7
        { path := some NOTIFICATION_OBJECTPATH
          interface := some NOTIFICATION_INTERFACE
          member := some "ActionInvoked"
          items := [MessageItem.uint32 7] } = StepResult.panic ∧
    waitForActionSignal 7
        [ConnItem.signal
          { path := some NOTIFICATION_OBJECTPATH
            interface := some NOTIFICATION_INTERFACE
            member := some "ActionInvoked"
            items := [MessageItem.uint32 7] }] = LoopResult.panicked ∧
    (∀ (id : Nat) (stream : List ConnItem),
      (∀ m : SignalMessage, ConnItem.signal m ∈ stream →
        matchesTriple m → 2 ≤ m.items.length) →
      waitForActionSignal id stream ≠ LoopResult.panicked) := by
  refine ⟨by decide, by decide, ?_⟩
  intro id stream
  induction stream with
  | nil =>
    intro _
    simp [waitForActionSignal]
  | cons it rest ih =>
    intro hlen
    cases it with
    | nonSignal =>
      simpa [waitForActionSignal] using
        ih (fun m hm => hlen m (List.mem_cons_of_mem _ hm))
    | signal m =>
      have hnp : signalStep id m ≠ StepResult.panic :=
        signalStep_no_panic_of_two_args id m
          (fun htriple => hlen m (List.mem_cons_self _ _) htriple)
      cases hs : signalStep id m with
      | panic => exact absurd hs hnp
      | next =>
        simpa [waitForActionSignal, hs] using
          ih (fun x hx => hlen x (List.mem_cons_of_mem _ hx))
      | invoke r =>
        simp [waitForActionSignal, hs]

/-- Witness for C10's totality part on a benign stream. -/
theorem matching_signal_short_args_panics_witness :
    waitForActionSignal 3
        [ConnItem.nonSignal,
          ConnItem.signal
            { path := some NOTIFICATION_OBJECTPATH
              interface := some NOTIFICATION_INTERFACE
              member := some "NotificationClosed"
              items := [MessageItem.uint32 3, MessageItem.uint32 2] }] ≠
      LoopResult.panicked :=
  matching_signal_short_args_panics.2.2 3
    [ConnItem.nonSignal,
      ConnItem.signal
        { path := some NOTIFICATION_OBJECTPATH
          interface := some NOTIFICATION_INTERFACE
          member := some "NotificationClosed"
          items := [MessageItem.uint32 3, MessageItem.uint32 2] }]
    (by
      intro m hm _
      simp only [List.mem_cons, List.not_mem_nil, or_false] at hm
      rcases hm with h | h
      · exact ConnItem.noConfusion h
      · injection h with h2
        subst h2
        simp)

end NotifyRust
